import Mathlib

/-!
# vault-backend-migrator: `vault/client.go`

A shallow embedding of the `vault` package (`List`, `Read`, `Write` of `client.go`)
together with the part of Go's `encoding/base64` that the package calls
(`StdEncoding.EncodeToString` and `StdEncoding.DecodeString`).

Conventions of the embedding:

* a Go `string` / `[]byte` is a list of bytes (`GoString`), a byte is `Fin 256`;
* Go machine integers are `Nat`, `byte(x)` is `x % 256`;
* a Go `map[string]T` is an association list with distinct keys (`GoMap T`);
  a possibly-`nil` map or slice is an `Option`;
* the external store (`v.c.Logical()`) is a triple of response functions;
  every operation returns its Go result together with the store calls it made
  and the `fmt.Printf` calls it issued.
-/

set_option maxRecDepth 100000

namespace vault

/-! ## Strings and bytes -/

abbrev Byte := Fin 256

abbrev GoString := List Byte

/-- The bytes of an ASCII source literal. -/
def lit (s : String) : GoString := s.toList.map (fun c => Fin.ofNat c.toNat)

/-- A Go `error` value: a `base64.CorruptInputError` (with its offset), an error
made by `fmt.Errorf` (format and arguments), or an error returned by the store
client. -/
inductive GoError
  | CorruptInputError (offset : Nat)
  | Errorf (format : GoString) (args : List GoString)
  | external (msg : GoString)
  deriving DecidableEq, Repr

/-! ## `encoding/base64` (Go standard library), `StdEncoding` -/

namespace base64

/-- Go standard library `encoding/base64`: `const encodeStd`, the standard alphabet. -/
def encodeStd : GoString :=
  lit "ABCDEFGHIJKLMNOPQRSTUVWXYZabcdefghijklmnopqrstuvwxyz0123456789+/"

/-- The padding character, `StdPadding rune = '='`. -/
def StdPadding : Byte := 61

/-- The byte `'\n'`. -/
def LF : Byte := 10

/-- The byte `'\r'`. -/
def CR : Byte := 13

/-- The table lookup `enc.encode[i]` for `StdEncoding`: the `i`-th character of the alphabet. -/
def encode (i : Nat) : Byte := encodeStd.getD i 0

/-- The table `enc.decodeMap` as built by `NewEncoding`: 256 entries, all `0xFF`, then
`decodeMap[encoder[i]] = byte(i)` for every index `i` of the alphabet. -/
def decodeMap : List Nat :=
  (List.range encodeStd.length).foldl (fun m i => m.set (encode i).val i)
    (List.replicate 256 0xFF)

/-- The table lookup `enc.decodeMap[in]`. -/
def decodeMapAt (c : Byte) : Nat := decodeMap.getD c.val 0xFF

/-- The conversion `byte(x)`: truncation of an unsigned integer to 8 bits. -/
def byte (x : Nat) : Byte := Fin.ofNat (x % 256)

/-- Go `(*Encoding).Encode` for `StdEncoding`, as a function from the source
bytes to the destination bytes: the main loop converts three source bytes into
four characters, the tail handles the one or two remaining bytes with padding. -/
def Encode : List Byte → List Byte
  | b0 :: b1 :: b2 :: rest =>
    let val := b0.val <<< 16 ||| b1.val <<< 8 ||| b2.val
    encode (val >>> 18 &&& 0x3F) :: encode (val >>> 12 &&& 0x3F) ::
      encode (val >>> 6 &&& 0x3F) :: encode (val &&& 0x3F) :: Encode rest
  | [b0, b1] =>
    let val := b0.val <<< 16 ||| b1.val <<< 8
    [encode (val >>> 18 &&& 0x3F), encode (val >>> 12 &&& 0x3F),
      encode (val >>> 6 &&& 0x3F), StdPadding]
  | [b0] =>
    let val := b0.val <<< 16
    [encode (val >>> 18 &&& 0x3F), encode (val >>> 12 &&& 0x3F), StdPadding, StdPadding]
  | [] => []

/-- Go `(*Encoding).EncodeToString`. -/
def EncodeToString (src : List Byte) : GoString := Encode src

/-- The end of `decodeQuantum`, "Convert 4x 6bit source bytes into 3 bytes":
the `dlen - 1` bytes that the `switch dlen` stores into `dst`. -/
def convert (dbuf : List Nat) (dlen : Nat) : List Byte :=
  let val := dbuf.getD 0 0 <<< 18 ||| dbuf.getD 1 0 <<< 12 ||| dbuf.getD 2 0 <<< 6 |||
    dbuf.getD 3 0
  [byte (val >>> 16), byte (val >>> 8), byte (val >>> 0)].take (dlen - 1)

/-- The loop `for si < len(src) && (src[si] == '\n' || src[si] == '\r') { si++ }`
of `decodeQuantum`; `src` is the unread suffix `src[si:]`. -/
def skipNewlines : List Byte → Nat → List Byte × Nat
  | [], si => ([], si)
  | c :: src, si => if c = LF ∨ c = CR then skipNewlines src (si + 1) else (c :: src, si)

/-- The last part of the padding branch of `decodeQuantum`: skip over newlines,
report trailing garbage, set `dlen = j` and convert. -/
def finishPadding (src : List Byte) (si j : Nat) (dbuf : List Nat) (dst : List Byte) :
    List Byte × Option GoError :=
  let (src, si) := skipNewlines src si
  let err := if src.length ≠ 0 then some (GoError.CorruptInputError si) else none
  (dst ++ convert dbuf j, err)

/-- The padding branch of `decodeQuantum` ("We've reached the end and there's
padding"), entered after a `=` has been consumed at position `j` of the quantum. -/
def padding (src : List Byte) (si j : Nat) (dbuf : List Nat) (dst : List Byte) :
    List Byte × Option GoError :=
  match j with
  | 0 | 1 => (dst, some (.CorruptInputError (si - 1)))
  | 2 =>
    match skipNewlines src si with
    | ([], si) => (dst, some (.CorruptInputError si))
    | (c :: src, si) =>
      if c ≠ StdPadding then (dst, some (.CorruptInputError (si - 1)))
      else finishPadding src (si + 1) j dbuf dst
  | _ => finishPadding src si j dbuf dst

/-- Go `(*Encoding).Decode` for `StdEncoding` (padding `=`, not strict), with
`decodeQuantum` unfolded into it: one step per source byte. `src` is the unread
suffix `src[si:]`, `j` and `dbuf` are the loop variables of the current
quantum, `dst` holds the bytes written so far. The result is `dst[:n]` and
`err`. The word-at-a-time fast paths of `Decode` decode the same quanta and
are not represented. -/
def decodeLoop : List Byte → Nat → Nat → List Nat → List Byte → List Byte × Option GoError
  | [], si, j, _, dst =>
    if j = 0 then (dst, none) else (dst, some (.CorruptInputError (si - j)))
  | c :: src, si, j, dbuf, dst =>
    let si := si + 1
    let out := decodeMapAt c
    if out ≠ 0xFF then
      let dbuf := dbuf.set j out
      if j + 1 < 4 then decodeLoop src si (j + 1) dbuf dst
      else decodeLoop src si 0 [0, 0, 0, 0] (dst ++ convert dbuf 4)
    else if c = LF ∨ c = CR then decodeLoop src si j dbuf dst
    else if c ≠ StdPadding then (dst, some (.CorruptInputError (si - 1)))
    else padding src si j dbuf dst

/-- Go `(*Encoding).DecodeString`: the decoded bytes and the error. -/
def DecodeString (s : GoString) : List Byte × Option GoError :=
  decodeLoop s 0 0 [0, 0, 0, 0] []

end base64

/-! ## Dynamic values, maps and the store -/

/-- A Go `interface{}` value held in a secret's `Data`, as the comment in
`Read` lists them: `nil`, `string`, `json.Number`, `bool`, `[]interface{}`,
`map[string]interface{}`; `other` is a value of any further dynamic type
(for instance a `float64`), named by its type. -/
inductive Value
  | null
  | string (s : GoString)
  | Number (n : GoString)
  | bool (b : Bool)
  | array (xs : List Value)
  | object (fields : List (GoString × Value))
  | other (typeName : GoString)

/-- A non-nil Go `map[string]V`: an association list with distinct keys.
`m.lookup k` is `m[k]`, `m.insert k x` is `m[k] = x`, `∅` is `make(map[string]V)`. -/
abbrev GoMap (V : Type) := AList (fun _ : GoString => V)

/-- The entries visited by `for k, v := range m`; a nil map has none. -/
def range {V : Type} : Option (GoMap V) → List (Σ _ : GoString, V)
  | none => []
  | some m => m.entries

/-- The type `api.Secret`; only its `Data map[string]interface{}` (which may be nil) is used. -/
structure Secret where
  Data : Option (GoMap Value)

/-- The store client `v.c.Logical()`: the responses `(*Secret, error)` of its
`List`, `Read` and `Write` calls. -/
structure Logical where
  List : GoString → Option Secret × Option GoError
  Read : GoString → Option Secret × Option GoError
  Write : GoString → GoMap Value → Option Secret × Option GoError

/-- The type `Vault struct { c *api.Client }`. -/
structure Vault where
  c : Logical

/-- A call made to the store. -/
inductive Call
  | List (path : GoString)
  | Read (path : GoString)
  | Write (path : GoString) (body : GoMap Value)

/-- An argument passed to `fmt.Printf`. -/
inductive Arg
  | string (s : GoString)
  | error (e : GoError)
  | value (v : Value)

/-- A call `fmt.Printf(format, args...)`. -/
structure Printf where
  format : GoString
  args : List Arg

/-- What an operation does: the value it returns, the store calls it made and
the `fmt.Printf` calls it issued, both in order. -/
structure Result (α : Type) where
  ret : α
  calls : List Call
  stdout : List Printf

/-- A run-time panic of a failed type assertion `x.(string)`. -/
inductive Panic
  | interfaceConversion (v : Value)

/-- Normal return or panic. -/
inductive Outcome (α : Type)
  | returns (a : α)
  | panics (p : Panic)

/-! ## `List` -/

/-- The loop `for i := range r { out[i] = r[i].(string) }` of `List`. -/
def listLoop : List Value → Outcome (List GoString)
  | [] => .returns []
  | .string s :: r =>
    match listLoop r with
    | .returns out => .returns (s :: out)
    | .panics p => .panics p
  | x :: _ => .panics (.interfaceConversion x)

/-- The expression `secret.Data["keys"]`: indexing a nil map, or a missing key, gives `nil`. -/
def index (data : Option (GoMap Value)) (k : GoString) : Value :=
  match data with
  | none => .null
  | some m => (m.lookup k).getD .null

/-- Go `func (v *Vault) List(path string) []string`; a nil slice is `none`. -/
def Vault.List (v : Vault) (path : GoString) : Result (Outcome (Option (List GoString))) :=
  match v.c.List path with
  | (none, _) => ⟨.returns none, [.List path], []⟩
  | (some _, some err) =>
    ⟨.returns none, [.List path],
      [⟨lit "Unable to read path %q, err=%v\n", [.string path, .error err]⟩]⟩
  | (some secret, none) =>
    match index secret.Data (lit "keys") with
    | .array r =>
      match listLoop r with
      | .returns out => ⟨.returns (some out), [.List path], []⟩
      | .panics p => ⟨.panics p, [.List path], []⟩
    | _ => ⟨.returns none, [.List path], []⟩

/-! ## `Read` -/

/-- The body of the loop of `Read` up to the encoding: the text `r` of a value
and what is printed for it. `r` stays empty for `nil` and in the `default` case,
which prints the diagnostic. In `case string` the assertion `v.(string)`
succeeds, so its `error converting string` is never printed. -/
def text (path k : GoString) : Value → GoString × List Printf
  | .null => ([], [])
  | .string s => (s, [])
  | .Number n => (n, [])
  | .bool b => (if b then lit "true" else lit "false", [])
  | v => ([], [⟨lit "error reading value at %s, key=%s, type=%T\n",
      [.string path, .string k, .value v]⟩])

/-- The loop `for k, v := range s.Data` of `Read`, over the entries still to
visit, with the map `out` and the output printed so far. -/
def readLoop (path : GoString) :
    List (Σ _ : GoString, Value) → GoMap GoString × List Printf → GoMap GoString × List Printf
  | [], acc => acc
  | ⟨k, v⟩ :: rest, (out, log) =>
    let (r, p) := text path k v
    let e := base64.EncodeToString r
    readLoop path rest (out.insert k e, log ++ p)

/-- Go `func (v *Vault) Read(path string) map[string]string`; a nil map is `none`. -/
def Vault.Read (v : Vault) (path : GoString) : Result (Option (GoMap GoString)) :=
  let out : GoMap GoString := ∅
  match v.c.Read path with
  | (_, some err) =>
    ⟨none, [.Read path], [⟨lit "Error reading secrets, err=%v", [.error err]⟩]⟩
  | (none, none) => ⟨some out, [.Read path], []⟩
  | (some s, none) =>
    match s.Data with
    | none => ⟨some out, [.Read path], []⟩
    | some data =>
      let (out, log) := readLoop path data.entries (out, [])
      ⟨some out, [.Read path], log⟩

/-! ## `Write` -/

/-- The loop `for k, v := range data` of `Write` ("Decode the base64 values"):
the body built, or the error of the first value that does not decode. -/
def writeLoop : List (Σ _ : GoString, GoString) → GoMap Value → Except GoError (GoMap Value)
  | [], body => .ok body
  | ⟨k, v⟩ :: rest, body =>
    match base64.DecodeString v with
    | (_, some err) => .error err
    | (b, none) => writeLoop rest (body.insert k (.string b))

/-- Go `func (v *Vault) Write(path string, data map[string]string) error`; the
`nil` error is `none`. -/
def Vault.Write (v : Vault) (path : GoString) (data : Option (GoMap GoString)) :
    Result (Option GoError) :=
  let body : GoMap Value := ∅
  match writeLoop (range data) body with
  | .error err => ⟨some err, [], []⟩
  | .ok body =>
    match v.c.Write path body with
    | (_, some err) => ⟨some err, [.Write path body], []⟩
    | (none, none) =>
      ⟨some (.Errorf (lit "No secret returned when writing to %s") [path]),
        [.Write path body], []⟩
    | (some _, none) => ⟨none, [.Write path body], []⟩

/-! ## Notions used to state the properties -/

/-- The textual form of a string, boolean or number value: the string itself,
`true` / `false`, or the number's literal text. Other values have none. -/
def textualForm : Value → Option GoString
  | .string s => some s
  | .Number n => some n
  | .bool true => some (lit "true")
  | .bool false => some (lit "false")
  | _ => none

/-- The lookup `m[k]` with presence (`x, ok := m[k]`) for a possibly-nil map. -/
def get {V : Type} (m : Option (GoMap V)) (k : GoString) : Option V :=
  match m with
  | none => none
  | some m => m.lookup k

/-- A value is valid base64 when `StdEncoding.DecodeString` returns no error. -/
def validBase64 (s : GoString) : Prop := (base64.DecodeString s).2 = none

instance (s : GoString) : Decidable (validBase64 s) := by
  unfold validBase64; infer_instance

/-! ## Concrete stores and records -/

/-- A store client with fixed responses to `List`, `Read` and `Write`. -/
def fixedStore (l r w : Option Secret × Option GoError) : Vault :=
  ⟨⟨fun _ => l, fun _ => r, fun _ _ => w⟩⟩

/-- The response carrying the given record, without error. -/
def found (record : GoMap Value) : Option Secret × Option GoError := (some ⟨some record⟩, none)

/-- The response with no secret and no error. -/
def absent : Option Secret × Option GoError := (none, none)

/-- The response of a write that succeeded: a secret, no error. -/
def confirmed : Option Secret × Option GoError := (some ⟨none⟩, none)

/-- The path used in the examples. -/
def examplePath : GoString := lit "secret/foo"

/-- The record `{"a": "hello", "b": true, "c": 42}`. -/
def helloRecord : GoMap Value :=
  (((∅ : GoMap Value).insert (lit "a") (.string (lit "hello"))).insert (lit "b")
    (.bool true)).insert (lit "c") (.Number (lit "42"))

/-- A record with a null, a nested object, a nested array and a `float64`
field next to a string field. -/
def mixedRecord : GoMap Value :=
  (((((∅ : GoMap Value).insert (lit "s") (.string (lit "hello"))).insert (lit "n")
    .null).insert (lit "o") (.object [(lit "x", .bool true)])).insert (lit "l")
    (.array [.string (lit "x")])).insert (lit "f") (.other (lit "float64"))

/-- An encoded record with one valid field and one field that is not base64. -/
def badData : GoMap GoString :=
  ((∅ : GoMap GoString).insert (lit "ok") (lit "aGVsbG8=")).insert (lit "k")
    (lit "not-base64!!!")

/-- An encoded record whose two fields are valid base64. -/
def goodData : GoMap GoString :=
  ((∅ : GoMap GoString).insert (lit "a") (lit "aGVsbG8=")).insert (lit "b") (lit "dHJ1ZQ==")

/-- The body that `Write` builds from the encoding of `helloRecord`. -/
def helloBody : GoMap Value :=
  (((∅ : GoMap Value).insert (lit "a") (.string (lit "hello"))).insert (lit "b")
    (.string (lit "true"))).insert (lit "c") (.string (lit "42"))

/-- A store error, as returned on a transport failure. -/
def connectionRefused : GoError := .external (lit "connection refused")

/-- A store holding `helloRecord`, whose writes succeed. -/
def helloStore : Vault := fixedStore absent (found helloRecord) confirmed

/-- A store holding `mixedRecord`, whose writes succeed. -/
def mixedStore : Vault := fixedStore absent (found mixedRecord) confirmed

/-- A store holding `helloBody`. -/
def helloBodyStore : Vault := fixedStore absent (found helloBody) confirmed

/-- A store with no record at any path, whose writes return no confirmation. -/
def emptyStore : Vault := fixedStore absent absent absent

/-- A store whose every call fails with `connectionRefused` and no secret. -/
def failingStore : Vault :=
  fixedStore (none, some connectionRefused) (none, some connectionRefused)
    (none, some connectionRefused)

/-- A value is diagnosed by `Read` when it is neither null nor a string, a
number or a boolean. -/
def diagnosed : Value → Bool
  | .null => false
  | .string _ => false
  | .Number _ => false
  | .bool _ => false
  | _ => true

/-- A store whose list call returns the given `keys` entry, without error. -/
def keysStore (keys : Value) : Vault :=
  fixedStore (found ((∅ : GoMap Value).insert (lit "keys") keys)) absent absent

/-- A `keys` entry that is a list of strings. -/
def stringKeys : Value := .array [.string (lit "foo"), .string (lit "bar/")]

/-- A `keys` entry whose second element is a number. -/
def numberInKeys : Value := .array [.string (lit "foo"), .Number (lit "7")]

/-- A store whose read call returns an error next to a record. -/
def errorWithRecordStore : Vault :=
  fixedStore absent (some ⟨some helloRecord⟩, some connectionRefused) absent

/-- The record with the single field `k`. -/
def single (k : GoString) (x : Value) : GoMap Value := (∅ : GoMap Value).insert k x

/-! ## `encoding/base64`: decoding an encoding -/

namespace base64

theorem shl_or (a b n : Nat) (h : b < 2 ^ n) : a <<< n ||| b = a * 2 ^ n + b := by
  rw [Nat.shiftLeft_eq, Nat.mul_comm, Nat.mul_add_lt_is_or h]

theorem and63 (x : Nat) : x &&& 0x3F = x % 64 := Nat.and_pow_two_sub_one_eq_mod x 6

theorem pack3 (a b c : Nat) (hb : b < 256) (hc : c < 256) :
    a <<< 16 ||| b <<< 8 ||| c = a * 65536 + b * 256 + c := by
  have h1 : a <<< 16 ||| b <<< 8 = a * 65536 + b * 256 := by
    rw [shl_or a (b <<< 8) 16 (by rw [Nat.shiftLeft_eq]; omega), Nat.shiftLeft_eq]
    norm_num
  have h2 : a * 65536 + b * 256 = (a * 256 + b) <<< 8 := by
    rw [Nat.shiftLeft_eq]; omega
  rw [h1, h2, shl_or _ c 8 (by omega)]
  omega

theorem pack4 (a b c d : Nat) (hb : b < 64) (hc : c < 64) (hd : d < 64) :
    a <<< 18 ||| b <<< 12 ||| c <<< 6 ||| d = a * 262144 + b * 4096 + c * 64 + d := by
  have h1 : a <<< 18 ||| b <<< 12 = a * 262144 + b * 4096 := by
    rw [shl_or a (b <<< 12) 18 (by rw [Nat.shiftLeft_eq]; omega), Nat.shiftLeft_eq]
    norm_num
  have h2 : a * 262144 + b * 4096 = (a * 64 + b) <<< 12 := by
    rw [Nat.shiftLeft_eq]; omega
  have h3 : (a * 64 + b) <<< 12 ||| c <<< 6 = (a * 64 + b) * 4096 + c * 64 := by
    rw [shl_or _ (c <<< 6) 12 (by rw [Nat.shiftLeft_eq]; omega), Nat.shiftLeft_eq]
    norm_num
  have h4 : (a * 64 + b) * 4096 + c * 64 = ((a * 64 + b) * 64 + c) <<< 6 := by
    rw [Nat.shiftLeft_eq]; omega
  rw [h1, h2, h3, h4, shl_or _ d 6 (by omega)]
  omega


theorem decodeMapAt_encode (i : Nat) (h : i < 64) : decodeMapAt (encode i) = i := by
  have key : ∀ i : Fin 64, decodeMapAt (encode i.val) = i.val := by decide
  exact key ⟨i, h⟩

theorem decodeLoop_symbol (i : Nat) (h : i < 64) (src : List Byte) (si j : Nat)
    (dbuf : List Nat) (dst : List Byte) :
    decodeLoop (encode i :: src) si j dbuf dst =
      if j + 1 < 4 then decodeLoop src (si + 1) (j + 1) (dbuf.set j i) dst
      else decodeLoop src (si + 1) 0 [0, 0, 0, 0] (dst ++ convert (dbuf.set j i) 4) := by
  have hne : i ≠ 255 := by omega
  simp [decodeLoop, decodeMapAt_encode i h, hne]

theorem decodeLoop_quantum (i0 i1 i2 i3 : Nat) (h0 : i0 < 64) (h1 : i1 < 64) (h2 : i2 < 64)
    (h3 : i3 < 64) (src : List Byte) (si : Nat) (dst : List Byte) :
    decodeLoop (encode i0 :: encode i1 :: encode i2 :: encode i3 :: src) si 0 [0, 0, 0, 0] dst =
      decodeLoop src (si + 4) 0 [0, 0, 0, 0] (dst ++ convert [i0, i1, i2, i3] 4) := by
  rw [decodeLoop_symbol i0 h0, decodeLoop_symbol i1 h1, decodeLoop_symbol i2 h2,
    decodeLoop_symbol i3 h3]
  simp

theorem decodeLoop_pad3 (i0 i1 i2 : Nat) (h0 : i0 < 64) (h1 : i1 < 64) (h2 : i2 < 64)
    (si : Nat) (dst : List Byte) :
    decodeLoop [encode i0, encode i1, encode i2, StdPadding] si 0 [0, 0, 0, 0] dst =
      (dst ++ convert [i0, i1, i2, 0] 3, none) := by
  rw [decodeLoop_symbol i0 h0, decodeLoop_symbol i1 h1, decodeLoop_symbol i2 h2]
  simp [decodeLoop, padding, finishPadding, skipNewlines,
    show decodeMapAt StdPadding = 255 from by decide, show StdPadding ≠ LF from by decide,
    show StdPadding ≠ CR from by decide]

theorem decodeLoop_pad2 (i0 i1 : Nat) (h0 : i0 < 64) (h1 : i1 < 64)
    (si : Nat) (dst : List Byte) :
    decodeLoop [encode i0, encode i1, StdPadding, StdPadding] si 0 [0, 0, 0, 0] dst =
      (dst ++ convert [i0, i1, 0, 0] 2, none) := by
  rw [decodeLoop_symbol i0 h0, decodeLoop_symbol i1 h1]
  simp [decodeLoop, padding, finishPadding, skipNewlines,
    show decodeMapAt StdPadding = 255 from by decide, show StdPadding ≠ LF from by decide,
    show StdPadding ≠ CR from by decide]

theorem byte_val (b : Byte) : byte b.val = b := by
  apply Fin.ext
  simp [byte, Fin.ofNat]

theorem byte_eq (x : Nat) (b : Byte) (h : x % 256 = b.val) : byte x = b := by
  apply Fin.ext
  simp [byte, Fin.ofNat, h]

theorem convert_regroup (v i0 i1 i2 i3 n : Nat) (hv : v < 16777216)
    (h0 : i0 = v / 262144 % 64) (h1 : i1 = v / 4096 % 64) (h2 : i2 = v / 64 % 64)
    (h3 : i3 = v % 64) :
    convert [i0, i1, i2, i3] n = [byte (v / 65536), byte (v / 256), byte v].take (n - 1) := by
  have e : i0 * 262144 + i1 * 4096 + i2 * 64 + i3 = v := by omega
  simp only [convert, List.getD_cons_zero, List.getD_cons_succ, Nat.shiftRight_eq_div_pow]
  rw [pack4 _ _ _ _ (by omega) (by omega) (by omega), e]
  norm_num

theorem convert_three (b0 b1 b2 : Byte) :
    convert [(b0.val <<< 16 ||| b1.val <<< 8 ||| b2.val) >>> 18 &&& 0x3F,
      (b0.val <<< 16 ||| b1.val <<< 8 ||| b2.val) >>> 12 &&& 0x3F,
      (b0.val <<< 16 ||| b1.val <<< 8 ||| b2.val) >>> 6 &&& 0x3F,
      (b0.val <<< 16 ||| b1.val <<< 8 ||| b2.val) &&& 0x3F] 4 = [b0, b1, b2] := by
  have hb0 := b0.isLt
  have hb1 := b1.isLt
  have hb2 := b2.isLt
  rw [convert_regroup (b0.val * 65536 + b1.val * 256 + b2.val) _ _ _ _ 4 (by omega)
    (by rw [pack3 _ _ _ hb1 hb2, and63, Nat.shiftRight_eq_div_pow])
    (by rw [pack3 _ _ _ hb1 hb2, and63, Nat.shiftRight_eq_div_pow])
    (by rw [pack3 _ _ _ hb1 hb2, and63, Nat.shiftRight_eq_div_pow])
    (by rw [pack3 _ _ _ hb1 hb2, and63])]
  simp only [Nat.add_one_sub_one, List.take_succ_cons, List.take_zero]
  rw [byte_eq _ b0 (by omega), byte_eq _ b1 (by omega), byte_eq _ b2 (by omega)]

theorem pack2 (a b : Nat) (hb : b < 256) : a <<< 16 ||| b <<< 8 = a * 65536 + b * 256 := by
  rw [shl_or a (b <<< 8) 16 (by rw [Nat.shiftLeft_eq]; omega), Nat.shiftLeft_eq]
  norm_num

theorem convert_two (b0 b1 : Byte) :
    convert [(b0.val <<< 16 ||| b1.val <<< 8) >>> 18 &&& 0x3F,
      (b0.val <<< 16 ||| b1.val <<< 8) >>> 12 &&& 0x3F,
      (b0.val <<< 16 ||| b1.val <<< 8) >>> 6 &&& 0x3F, 0] 3 = [b0, b1] := by
  have hb0 := b0.isLt
  have hb1 := b1.isLt
  rw [convert_regroup (b0.val * 65536 + b1.val * 256) _ _ _ _ 3 (by omega)
    (by rw [pack2 _ _ hb1, and63, Nat.shiftRight_eq_div_pow])
    (by rw [pack2 _ _ hb1, and63, Nat.shiftRight_eq_div_pow])
    (by rw [pack2 _ _ hb1, and63, Nat.shiftRight_eq_div_pow])
    (by omega)]
  simp only [Nat.add_one_sub_one, List.take_succ_cons, List.take_zero]
  rw [byte_eq _ b0 (by omega), byte_eq _ b1 (by omega)]

theorem convert_one (b0 : Byte) :
    convert [b0.val <<< 16 >>> 18 &&& 0x3F, b0.val <<< 16 >>> 12 &&& 0x3F, 0, 0] 2 = [b0] := by
  have hb0 := b0.isLt
  rw [convert_regroup (b0.val * 65536) _ _ _ _ 2 (by omega)
    (by rw [Nat.shiftLeft_eq, and63, Nat.shiftRight_eq_div_pow])
    (by rw [Nat.shiftLeft_eq, and63, Nat.shiftRight_eq_div_pow])
    (by omega) (by omega)]
  simp only [Nat.add_one_sub_one, List.take_succ_cons, List.take_zero]
  rw [byte_eq _ b0 (by omega)]

theorem and63_lt (x : Nat) : x &&& 0x3F < 64 := by
  rw [and63]; omega

theorem decodeLoop_Encode (bs : List Byte) :
    ∀ (si : Nat) (dst : List Byte),
      decodeLoop (Encode bs) si 0 [0, 0, 0, 0] dst = (dst ++ bs, none) := by
  induction bs using Encode.induct with
  | case1 b0 b1 b2 rest ih =>
    intro si dst
    simp only [Encode]
    rw [decodeLoop_quantum _ _ _ _ (and63_lt _) (and63_lt _) (and63_lt _) (and63_lt _),
      convert_three, ih]
    simp
  | case2 b0 b1 =>
    intro si dst
    simp only [Encode]
    rw [decodeLoop_pad3 _ _ _ (and63_lt _) (and63_lt _) (and63_lt _), convert_two]
  | case3 b0 =>
    intro si dst
    simp only [Encode]
    rw [decodeLoop_pad2 _ _ (and63_lt _) (and63_lt _), convert_one]
  | case4 =>
    intro si dst
    simp [Encode, decodeLoop]

/-- Decoding an encoded byte string gives the bytes back, without error. -/
theorem DecodeString_EncodeToString (bs : List Byte) :
    DecodeString (EncodeToString bs) = (bs, none) := by
  simp [DecodeString, EncodeToString, decodeLoop_Encode]

end base64

/-! ## The loops of `Read` and `Write` -/

theorem text_fst (path k : GoString) (x : Value) :
    (text path k x).1 = (textualForm x).getD [] := by
  cases x with
  | bool b => cases b <;> rfl
  | _ => rfl

theorem readLoop_lookup (path k : GoString) :
    ∀ (l : List (Σ _ : GoString, Value)) (acc : GoMap GoString × List Printf), l.NodupKeys →
      (readLoop path l acc).1.lookup k =
        (l.dlookup k).elim (acc.1.lookup k)
          (fun x => some (base64.EncodeToString ((textualForm x).getD []))) := by
  intro l
  induction l with
  | nil => intro acc _; simp [readLoop]
  | cons e rest ih =>
    intro acc nd
    obtain ⟨k', x⟩ := e
    obtain ⟨out, log⟩ := acc
    rw [List.nodupKeys_cons] at nd
    simp only [readLoop]
    rw [ih _ nd.2]
    by_cases h : k = k'
    · subst h
      have hnone : List.dlookup k rest = none := List.dlookup_eq_none.mpr nd.1
      simp [hnone, List.dlookup_cons_eq, AList.lookup_insert, text_fst]
    · rw [List.dlookup_cons_ne _ _ h]
      simp [AList.lookup_insert_ne h]

theorem writeLoop_ok :
    ∀ (l : List (Σ _ : GoString, GoString)) (body : GoMap Value), l.NodupKeys →
      (∀ e ∈ l, validBase64 e.2) →
      ∃ body', writeLoop l body = .ok body' ∧
        ∀ k, body'.lookup k =
          (l.dlookup k).elim (body.lookup k)
            (fun s => some (Value.string (base64.DecodeString s).1)) := by
  intro l
  induction l with
  | nil => intro body _ _; exact ⟨body, rfl, by simp⟩
  | cons e rest ih =>
    intro body nd hv
    obtain ⟨k', s⟩ := e
    rw [List.nodupKeys_cons] at nd
    have hs : (base64.DecodeString s).2 = none := hv ⟨k', s⟩ (List.mem_cons_self _ _)
    obtain ⟨body', hb, hl⟩ := ih (body.insert k' (.string (base64.DecodeString s).1)) nd.2
      (fun e he => hv e (List.mem_cons_of_mem _ he))
    refine ⟨body', ?_, ?_⟩
    · rw [← hb]
      simp only [writeLoop]
      split
      · rename_i heq
        rw [heq] at hs
        simp at hs
      · rename_i heq
        rw [heq]
    · intro k
      rw [hl k]
      by_cases h : k = k'
      · subst h
        have hnone : List.dlookup k rest = none := List.dlookup_eq_none.mpr nd.1
        simp [hnone, List.dlookup_cons_eq, AList.lookup_insert]
      · rw [List.dlookup_cons_ne _ _ h]
        simp [AList.lookup_insert_ne h]

theorem writeLoop_error :
    ∀ (l : List (Σ _ : GoString, GoString)) (body : GoMap Value),
      (∃ e ∈ l, ¬ validBase64 e.2) → ∃ err, writeLoop l body = .error err := by
  intro l
  induction l with
  | nil => intro body h; simp at h
  | cons e rest ih =>
    intro body h
    obtain ⟨k', s⟩ := e
    simp only [writeLoop]
    split
    · rename_i err heq
      exact ⟨err, rfl⟩
    · rename_i b heq
      apply ih
      obtain ⟨e, he, hbad⟩ := h
      rcases List.mem_cons.mp he with h1 | h1
      · subst h1
        exact absurd (by simp [validBase64, heq]) hbad
      · exact ⟨e, h1, hbad⟩

theorem Read_record (v : Vault) (path : GoString) (record : GoMap Value)
    (hread : v.c.Read path = (some ⟨some record⟩, none)) :
    ∃ out log, v.Read path = ⟨some out, [.Read path], log⟩ ∧
      ∀ k, out.lookup k =
        (record.lookup k).map (fun x => base64.EncodeToString ((textualForm x).getD [])) := by
  refine ⟨(readLoop path record.entries (∅, [])).1, (readLoop path record.entries (∅, [])).2,
    ?_, ?_⟩
  · simp [Vault.Read, hread]
  · intro k
    rw [readLoop_lookup path k _ _ record.nodupKeys]
    show Option.elim (record.lookup k) _ _ = _
    cases record.lookup k <;> simp

theorem valid_of_lookup_map {α : Type} (out : GoMap GoString) (m : GoMap α)
    (f : α → List Byte)
    (h : ∀ k, out.lookup k = (m.lookup k).map (fun x => base64.EncodeToString (f x))) :
    ∀ e ∈ out.entries, validBase64 e.2 := by
  intro e he
  obtain ⟨k, s⟩ := e
  have hl : out.lookup k = some s := AList.mem_lookup_iff.mpr he
  rw [h k] at hl
  cases hm : m.lookup k with
  | none => rw [hm] at hl; simp at hl
  | some x =>
    rw [hm] at hl
    simp only [Option.map_some', Option.some.injEq] at hl
    show (base64.DecodeString s).2 = none
    rw [← hl, base64.DecodeString_EncodeToString]

theorem writeLoop_valid (data : GoMap GoString) (hv : ∀ e ∈ data.entries, validBase64 e.2) :
    ∃ body, writeLoop (range (some data)) ∅ = .ok body ∧
      ∀ k, body.lookup k =
        (data.lookup k).map (fun s => Value.string (base64.DecodeString s).1) := by
  obtain ⟨body, hb, hl⟩ := writeLoop_ok data.entries ∅ data.nodupKeys hv
  refine ⟨body, hb, ?_⟩
  intro k
  rw [hl k]
  show Option.elim (data.lookup k) _ _ = _
  cases data.lookup k <;> simp

theorem Write_of_ok (v : Vault) (path : GoString) (data : Option (GoMap GoString))
    (body : GoMap Value) (hb : writeLoop (range data) ∅ = .ok body) :
    (v.Write path data).calls = [.Write path body] ∧ (v.Write path data).stdout = [] ∧
      (v.Write path data).ret =
        match v.c.Write path body with
        | (_, some err) => some err
        | (none, none) => some (.Errorf (lit "No secret returned when writing to %s") [path])
        | (some _, none) => none := by
  simp only [Vault.Write, hb]
  rcases hw : v.c.Write path body with ⟨s, e⟩
  cases e with
  | some err => simp
  | none => cases s <;> simp

theorem mem_iff_of_lookup_map {α β : Type} (a : GoMap α) (b : GoMap β) (f : β → α)
    (h : ∀ k, a.lookup k = (b.lookup k).map f) (k : GoString) : k ∈ a ↔ k ∈ b := by
  rw [← AList.lookup_isSome, ← AList.lookup_isSome, h k]
  cases b.lookup k <;> simp

/-! ## Properties of `Read`, `Write` and `List` -/

/-- C1: for a record whose fields are all strings, booleans or numbers and a
store whose write call succeeds, `Write(path, Read(record))` returns no error
and hands the store one body, which has exactly the record's field names and
in which every field is the string equal to the textual form of the original
value. -/
theorem C1_read_write_round_trip (v : Vault) (rpath wpath : GoString) (record : GoMap Value)
    (hread : v.c.Read rpath = (some ⟨some record⟩, none))
    (hfields : ∀ e ∈ record.entries, (textualForm e.2).isSome)
    (hwrite : ∀ body, ∃ secret, v.c.Write wpath body = (some secret, none)) :
    ∃ body, (v.Write wpath (v.Read rpath).ret).ret = none ∧
      (v.Write wpath (v.Read rpath).ret).calls = [.Write wpath body] ∧
      (∀ k, k ∈ body ↔ k ∈ record) ∧
      ∀ k, body.lookup k = (record.lookup k).bind (fun x => (textualForm x).map Value.string) := by
  obtain ⟨out, log, hr, hout⟩ := Read_record v rpath record hread
  obtain ⟨body, hb, hbody⟩ := writeLoop_valid out (valid_of_lookup_map out record _ hout)
  obtain ⟨hcalls, -, hret⟩ := Write_of_ok v wpath (some out) body hb
  obtain ⟨secret, hs⟩ := hwrite body
  have key : ∀ k, body.lookup k =
      (record.lookup k).bind (fun x => (textualForm x).map Value.string) := by
    intro k
    rw [hbody k, hout k]
    cases hk : record.lookup k with
    | none => simp
    | some x =>
      have hx : (textualForm x).isSome := hfields ⟨k, x⟩ (AList.mem_lookup_iff.mp hk)
      obtain ⟨t, ht⟩ := Option.isSome_iff_exists.mp hx
      simp [ht, base64.DecodeString_EncodeToString]
  refine ⟨body, ?_, ?_, ?_, key⟩
  · rw [hr, hret, hs]
  · rw [hr, hcalls]
  · intro k
    rw [← AList.lookup_isSome, ← AList.lookup_isSome, key k]
    cases hk : record.lookup k with
    | none => simp
    | some x =>
      have hx : (textualForm x).isSome := hfields ⟨k, x⟩ (AList.mem_lookup_iff.mp hk)
      obtain ⟨t, ht⟩ := Option.isSome_iff_exists.mp hx
      simp [ht]

/-- C1 at the record `{"a": "hello", "b": true, "c": 42}`. -/
theorem C1_read_write_round_trip_witness :
    (helloStore.c.Read examplePath = (some ⟨some helloRecord⟩, none) ∧
      (∀ e ∈ helloRecord.entries, (textualForm e.2).isSome) ∧
      ∀ body, ∃ secret, helloStore.c.Write examplePath body = (some secret, none)) ∧
    ∃ body, (helloStore.Write examplePath (helloStore.Read examplePath).ret).ret = none ∧
      (helloStore.Write examplePath (helloStore.Read examplePath).ret).calls =
        [.Write examplePath body] ∧
      (∀ k, k ∈ body ↔ k ∈ helloRecord) ∧
      ∀ k, body.lookup k =
        (helloRecord.lookup k).bind (fun x => (textualForm x).map Value.string) :=
  ⟨⟨rfl, by decide, fun _ => ⟨_, rfl⟩⟩,
    C1_read_write_round_trip helloStore examplePath examplePath helloRecord rfl (by decide)
      (fun _ => ⟨_, rfl⟩)⟩

/-- C2: for a record whose fields are strings, booleans or JSON numbers,
`Read` returns a map with exactly the record's field names; a string field
maps to the base64 of the string's bytes, a boolean field to the base64 of
`true` or `false`, a number field to the base64 of its text, and every field
of the result is the base64 of the textual form of the record's field. -/
theorem C2_read_encodes_scalars (v : Vault) (path : GoString) (record : GoMap Value)
    (hread : v.c.Read path = (some ⟨some record⟩, none))
    (hfields : ∀ e ∈ record.entries, (textualForm e.2).isSome) :
    ∃ out, (v.Read path).ret = some out ∧
      (∀ k, k ∈ out ↔ k ∈ record) ∧
      (∀ k s, record.lookup k = some (.string s) →
        out.lookup k = some (base64.EncodeToString s)) ∧
      (∀ k b, record.lookup k = some (.bool b) →
        out.lookup k = some (base64.EncodeToString (if b then lit "true" else lit "false"))) ∧
      (∀ k n, record.lookup k = some (.Number n) →
        out.lookup k = some (base64.EncodeToString n)) ∧
      ∀ k, out.lookup k =
        (record.lookup k).bind (fun x => (textualForm x).map base64.EncodeToString) := by
  obtain ⟨out, log, hr, hout⟩ := Read_record v path record hread
  refine ⟨out, by rw [hr], mem_iff_of_lookup_map out record _ hout, ?_, ?_, ?_, ?_⟩
  · intro k s hk
    rw [hout k, hk]; rfl
  · intro k b hk
    rw [hout k, hk]; cases b <;> rfl
  · intro k n hk
    rw [hout k, hk]; rfl
  · intro k
    rw [hout k]
    cases hk : record.lookup k with
    | none => simp
    | some x =>
      have hx : (textualForm x).isSome := hfields ⟨k, x⟩ (AList.mem_lookup_iff.mp hk)
      obtain ⟨t, ht⟩ := Option.isSome_iff_exists.mp hx
      simp [ht]

/-- C2 at the record `{"a": "hello", "b": true, "c": 42}`: the three keys of
the result decode to `hello`, `true` and `42`. -/
theorem C2_read_encodes_scalars_witness :
    (helloStore.c.Read examplePath = (some ⟨some helloRecord⟩, none) ∧
      (∀ e ∈ helloRecord.entries, (textualForm e.2).isSome)) ∧
    (∃ out, (helloStore.Read examplePath).ret = some out ∧
      (∀ k, k ∈ out ↔ k ∈ helloRecord) ∧
      (∀ k s, helloRecord.lookup k = some (.string s) →
        out.lookup k = some (base64.EncodeToString s)) ∧
      (∀ k b, helloRecord.lookup k = some (.bool b) →
        out.lookup k = some (base64.EncodeToString (if b then lit "true" else lit "false"))) ∧
      (∀ k n, helloRecord.lookup k = some (.Number n) →
        out.lookup k = some (base64.EncodeToString n)) ∧
      ∀ k, out.lookup k =
        (helloRecord.lookup k).bind (fun x => (textualForm x).map base64.EncodeToString)) ∧
    (get (helloStore.Read examplePath).ret (lit "a")).map base64.DecodeString =
      some (lit "hello", none) ∧
    (get (helloStore.Read examplePath).ret (lit "b")).map base64.DecodeString =
      some (lit "true", none) ∧
    (get (helloStore.Read examplePath).ret (lit "c")).map base64.DecodeString =
      some (lit "42", none) ∧
    ((helloStore.Read examplePath).ret.map (fun out => out.keys.length)) = some 3 :=
  ⟨⟨rfl, by decide⟩,
    C2_read_encodes_scalars helloStore examplePath helloRecord rfl (by decide),
    by decide, by decide, by decide, by decide⟩

/-- C3: when some field of the encoded record is not valid base64, `Write`
returns an error and makes no call to the store. -/
theorem C3_write_aborts_on_invalid_base64 (v : Vault) (path : GoString)
    (data : GoMap GoString) (hbad : ∃ e ∈ data.entries, ¬ validBase64 e.2) :
    (∃ err, (v.Write path (some data)).ret = some err) ∧
      (v.Write path (some data)).calls = [] := by
  obtain ⟨err, he⟩ := writeLoop_error (range (some data)) ∅ hbad
  simp [Vault.Write, he]

/-- C3 at a record with one valid field and the field `not-base64!!!`. -/
theorem C3_write_aborts_on_invalid_base64_witness :
    (∃ e ∈ badData.entries, ¬ validBase64 e.2) ∧
    (∃ err, (helloStore.Write examplePath (some badData)).ret = some err) ∧
      (helloStore.Write examplePath (some badData)).calls = [] :=
  ⟨by decide, C3_write_aborts_on_invalid_base64 helloStore examplePath badData (by decide)⟩

/-- C4: when every value of the encoded record is valid base64, `Write` makes
one store call and returns success exactly when the store returns a secret
and no error; a store error is returned unchanged, and a response with no
error and no secret gives the error "No secret returned when writing to
path", made by `Write` itself. -/
theorem C4_write_result (v : Vault) (path : GoString) (data : GoMap GoString)
    (hvalid : ∀ e ∈ data.entries, validBase64 e.2) :
    ∃ body, (v.Write path (some data)).calls = [.Write path body] ∧
      ((v.Write path (some data)).ret = none ↔
        ∃ secret, v.c.Write path body = (some secret, none)) ∧
      (∀ secret err, v.c.Write path body = (secret, some err) →
        (v.Write path (some data)).ret = some err) ∧
      (v.c.Write path body = (none, none) →
        (v.Write path (some data)).ret =
            some (.Errorf (lit "No secret returned when writing to %s") [path]) ∧
          (v.Write path (some data)).ret ≠ (v.c.Write path body).2) := by
  obtain ⟨body, hb, -⟩ := writeLoop_valid data hvalid
  obtain ⟨hcalls, -, hret⟩ := Write_of_ok v path (some data) body hb
  refine ⟨body, hcalls, ?_, ?_, ?_⟩
  · rw [hret]
    rcases hw : v.c.Write path body with ⟨s, e⟩
    cases e with
    | some err => simp
    | none => cases s <;> simp
  · intro secret err hw
    rw [hret, hw]
    cases secret <;> rfl
  · intro hw
    rw [hret, hw]
    simp

/-- C4 at a valid record and a store that returns no confirmation. -/
theorem C4_write_result_witness :
    (∀ e ∈ goodData.entries, validBase64 e.2) ∧
    ∃ body, (emptyStore.Write examplePath (some goodData)).calls = [.Write examplePath body] ∧
      ((emptyStore.Write examplePath (some goodData)).ret = none ↔
        ∃ secret, emptyStore.c.Write examplePath body = (some secret, none)) ∧
      (∀ secret err, emptyStore.c.Write examplePath body = (secret, some err) →
        (emptyStore.Write examplePath (some goodData)).ret = some err) ∧
      (emptyStore.c.Write examplePath body = (none, none) →
        (emptyStore.Write examplePath (some goodData)).ret =
            some (.Errorf (lit "No secret returned when writing to %s") [examplePath]) ∧
          (emptyStore.Write examplePath (some goodData)).ret ≠
            (emptyStore.c.Write examplePath body).2) :=
  ⟨by decide, C4_write_result emptyStore examplePath goodData (by decide)⟩

/-- C5: for every record the store returns, `Read` returns a map with exactly
the record's field names; a field that is null, a nested object, a nested
array or of any other unsupported kind (a value without textual form) is kept
with the base64 of the empty byte string, which is the empty string, and
every other field has its normal encoding. -/
theorem C5_read_unsupported_fields (v : Vault) (path : GoString) (record : GoMap Value)
    (hread : v.c.Read path = (some ⟨some record⟩, none)) :
    ∃ out, (v.Read path).ret = some out ∧
      (∀ k, k ∈ out ↔ k ∈ record) ∧
      (∀ k x, record.lookup k = some x → textualForm x = none →
        out.lookup k = some (base64.EncodeToString []) ∧ out.lookup k = some []) ∧
      (∀ k x t, record.lookup k = some x → textualForm x = some t →
        out.lookup k = some (base64.EncodeToString t)) := by
  obtain ⟨out, log, hr, hout⟩ := Read_record v path record hread
  refine ⟨out, by rw [hr], mem_iff_of_lookup_map out record _ hout, ?_, ?_⟩
  · intro k x hk hx
    rw [hout k, hk]
    simp [hx, base64.EncodeToString, base64.Encode]
  · intro k x t hk hx
    rw [hout k, hk]
    simp [hx]

/-- C5 at a record with a null, an object, an array and a `float64` field
next to a string field. -/
theorem C5_read_unsupported_fields_witness :
    mixedStore.c.Read examplePath = (some ⟨some mixedRecord⟩, none) ∧
    (∃ out, (mixedStore.Read examplePath).ret = some out ∧
      (∀ k, k ∈ out ↔ k ∈ mixedRecord) ∧
      (∀ k x, mixedRecord.lookup k = some x → textualForm x = none →
        out.lookup k = some (base64.EncodeToString []) ∧ out.lookup k = some []) ∧
      (∀ k x t, mixedRecord.lookup k = some x → textualForm x = some t →
        out.lookup k = some (base64.EncodeToString t))) ∧
    get (mixedStore.Read examplePath).ret (lit "n") = some [] ∧
    get (mixedStore.Read examplePath).ret (lit "o") = some [] ∧
    get (mixedStore.Read examplePath).ret (lit "l") = some [] ∧
    get (mixedStore.Read examplePath).ret (lit "f") = some [] ∧
    get (mixedStore.Read examplePath).ret (lit "s") = some (lit "aGVsbG8=") :=
  ⟨rfl, C5_read_unsupported_fields mixedStore examplePath mixedRecord rfl,
    by decide, by decide, by decide, by decide, by decide⟩

/-- C6: when the store's read call returns no error and no record (a nil
secret, or a secret whose data is nil), `Read` returns an empty non-nil map
and prints nothing. -/
theorem C6_read_absent_record (v : Vault) (path : GoString)
    (habsent : v.c.Read path = (none, none) ∨ v.c.Read path = (some ⟨none⟩, none)) :
    (v.Read path).ret = some ∅ ∧ (v.Read path).ret ≠ none ∧ (v.Read path).stdout = [] := by
  rcases habsent with h | h <;> simp [Vault.Read, h]

/-- C6 at a store with no record. -/
theorem C6_read_absent_record_witness :
    (emptyStore.c.Read examplePath = (none, none) ∨
      emptyStore.c.Read examplePath = (some ⟨none⟩, none)) ∧
    (emptyStore.Read examplePath).ret = some ∅ ∧ (emptyStore.Read examplePath).ret ≠ none ∧
      (emptyStore.Read examplePath).stdout = [] :=
  ⟨Or.inl rfl, C6_read_absent_record emptyStore examplePath (Or.inl rfl)⟩

/-- C7: when the store's list call returns no secret and no error, `List`
returns nil, without panic, and prints nothing. -/
theorem C7_list_absent_path (v : Vault) (path : GoString)
    (habsent : v.c.List path = (none, none)) :
    (v.List path).ret = .returns none ∧ (v.List path).stdout = [] := by
  simp [Vault.List, habsent]

/-- C7 at a store with no record. -/
theorem C7_list_absent_path_witness :
    emptyStore.c.List examplePath = (none, none) ∧
    (emptyStore.List examplePath).ret = .returns none ∧
      (emptyStore.List examplePath).stdout = [] :=
  ⟨rfl, C7_list_absent_path emptyStore examplePath rfl⟩

/-- C8: when the store's list call returns an error and no secret, `List`
returns nil and prints nothing: the check `secret == nil` comes before the
check of `err`. With a secret next to the error the diagnostic is printed. -/
theorem C8_list_error_without_secret_is_silent :
    failingStore.c.List examplePath = (none, some connectionRefused) ∧
    (failingStore.List examplePath).ret = .returns none ∧
    (failingStore.List examplePath).stdout = [] ∧
    ((fixedStore (some ⟨none⟩, some connectionRefused) absent absent).List examplePath).stdout =
      [⟨lit "Unable to read path %q, err=%v\n",
        [.string examplePath, .error connectionRefused]⟩] :=
  ⟨rfl, rfl, rfl, rfl⟩

/-- C9: for a record `r` whose fields are strings, booleans or numbers, if
`body` is the record that `Write(path, Read(r))` hands to the store, then
`Read` of `body` has the same field names and the same base64 values as `Read`
of `r`, and each of them decodes to the textual form of the field of `r`. -/
theorem C9_read_write_read_idempotent (v w : Vault) (rpath wpath rpath2 : GoString)
    (record body : GoMap Value)
    (hread : v.c.Read rpath = (some ⟨some record⟩, none))
    (hfields : ∀ e ∈ record.entries, (textualForm e.2).isSome)
    (hcall : (v.Write wpath (v.Read rpath).ret).calls = [.Write wpath body])
    (hread2 : w.c.Read rpath2 = (some ⟨some body⟩, none)) :
    (∀ k, get (w.Read rpath2).ret k = get (v.Read rpath).ret k) ∧
      ∀ k, (get (w.Read rpath2).ret k).map base64.DecodeString =
        (record.lookup k).bind (fun x => (textualForm x).map (fun t => (t, none))) := by
  obtain ⟨out, log, hr, hout⟩ := Read_record v rpath record hread
  obtain ⟨body0, hb, hbody⟩ := writeLoop_valid out (valid_of_lookup_map out record _ hout)
  obtain ⟨hcalls, -, -⟩ := Write_of_ok v wpath (some out) body0 hb
  rw [hr] at hcall
  rw [hcalls] at hcall
  simp only [List.cons.injEq, Call.Write.injEq, and_true, true_and] at hcall
  subst hcall
  obtain ⟨out2, log2, hr2, hout2⟩ := Read_record w rpath2 body0 hread2
  have same : ∀ k, out2.lookup k = out.lookup k := by
    intro k
    rw [hout2 k, hbody k, hout k]
    cases record.lookup k with
    | none => simp
    | some x => simp [base64.DecodeString_EncodeToString, textualForm]
  rw [hr, hr2]
  refine ⟨same, ?_⟩
  intro k
  show (out2.lookup k).map base64.DecodeString = _
  rw [same k, hout k]
  cases hk : record.lookup k with
  | none => simp
  | some x =>
    have hx : (textualForm x).isSome := hfields ⟨k, x⟩ (AList.mem_lookup_iff.mp hk)
    obtain ⟨t, ht⟩ := Option.isSome_iff_exists.mp hx
    simp [ht, base64.DecodeString_EncodeToString]

/-- C9 at the record `{"a": "hello", "b": true, "c": 42}`, whose body is
`{"a": "hello", "b": "true", "c": "42"}`. -/
theorem C9_read_write_read_idempotent_witness :
    (helloStore.c.Read examplePath = (some ⟨some helloRecord⟩, none) ∧
      (∀ e ∈ helloRecord.entries, (textualForm e.2).isSome) ∧
      (helloStore.Write examplePath (helloStore.Read examplePath).ret).calls =
        [.Write examplePath helloBody] ∧
      helloBodyStore.c.Read examplePath = (some ⟨some helloBody⟩, none)) ∧
    (∀ k, get (helloBodyStore.Read examplePath).ret k = get (helloStore.Read examplePath).ret k) ∧
      ∀ k, (get (helloBodyStore.Read examplePath).ret k).map base64.DecodeString =
        (helloRecord.lookup k).bind (fun x => (textualForm x).map (fun t => (t, none))) :=
  ⟨⟨rfl, by decide, by rfl, rfl⟩,
    C9_read_write_read_idempotent helloStore helloBodyStore examplePath examplePath examplePath
      helloRecord helloBody rfl (by decide) (by rfl) rfl⟩

/-- C10: when every value of the encoded record is valid base64, the body that
`Write` passes to the store's write call has exactly the record's field names,
and each field is the string whose bytes are the base64 decoding of the
supplied value. -/
theorem C10_write_body (v : Vault) (path : GoString) (data : GoMap GoString)
    (hvalid : ∀ e ∈ data.entries, validBase64 e.2) :
    ∃ body, (v.Write path (some data)).calls = [.Write path body] ∧
      (∀ k, k ∈ body ↔ k ∈ data) ∧
      ∀ k, body.lookup k =
        (data.lookup k).map (fun s => Value.string (base64.DecodeString s).1) := by
  obtain ⟨body, hb, hbody⟩ := writeLoop_valid data hvalid
  obtain ⟨hcalls, -, -⟩ := Write_of_ok v path (some data) body hb
  exact ⟨body, hcalls, mem_iff_of_lookup_map body data _ hbody, hbody⟩

/-- C10 at a record with the fields `aGVsbG8=` and `dHJ1ZQ==`. -/
theorem C10_write_body_witness :
    (∀ e ∈ goodData.entries, validBase64 e.2) ∧
    (∃ body, (helloStore.Write examplePath (some goodData)).calls = [.Write examplePath body] ∧
      (∀ k, k ∈ body ↔ k ∈ goodData) ∧
      ∀ k, body.lookup k =
        (goodData.lookup k).map (fun s => Value.string (base64.DecodeString s).1)) ∧
    (goodData.lookup (lit "a")).map (fun s => (base64.DecodeString s).1) = some (lit "hello") ∧
    (goodData.lookup (lit "b")).map (fun s => (base64.DecodeString s).1) = some (lit "true") :=
  ⟨by decide, C10_write_body helloStore examplePath goodData (by decide), by decide, by decide⟩

/-! ## Further properties of `List` and `Read` -/

theorem listLoop_strings :
    ∀ r : List Value, (∀ x ∈ r, ∃ s, x = Value.string s) →
      ∃ out, listLoop r = .returns out ∧ r = out.map Value.string := by
  intro r
  induction r with
  | nil => intro _; exact ⟨[], rfl, rfl⟩
  | cons x rest ih =>
    intro h
    obtain ⟨s, hs⟩ := h x (List.mem_cons_self _ _)
    obtain ⟨out, ho, hr⟩ := ih (fun y hy => h y (List.mem_cons_of_mem _ hy))
    subst hs
    refine ⟨s :: out, ?_, ?_⟩
    · simp [listLoop, ho]
    · simp [← hr]

theorem text_snd (path k : GoString) (x : Value) :
    (text path k x).2 =
      if diagnosed x then
        [⟨lit "error reading value at %s, key=%s, type=%T\n",
          [.string path, .string k, .value x]⟩]
      else [] := by
  cases x <;> rfl

theorem readLoop_stdout (path : GoString) :
    ∀ (l : List (Σ _ : GoString, Value)) (acc : GoMap GoString × List Printf),
      (readLoop path l acc).2 =
        acc.2 ++ (l.filter (fun e => diagnosed e.2)).map (fun e =>
          (⟨lit "error reading value at %s, key=%s, type=%T\n",
            [.string path, .string e.1, .value e.2]⟩ : Printf)) := by
  intro l
  induction l with
  | nil => intro acc; simp [readLoop]
  | cons e rest ih =>
    intro acc
    obtain ⟨k, x⟩ := e
    obtain ⟨out, log⟩ := acc
    simp only [readLoop]
    rw [ih, text_snd]
    cases hd : diagnosed x <;> simp [List.filter_cons, hd]

/-- The decoding loop of `Write` succeeds on whatever `Read` returns. -/
theorem writeLoop_Read (v : Vault) (path : GoString) :
    (∀ out, (v.Read path).ret = some out → ∀ e ∈ out.entries, validBase64 e.2) ∧
      ∃ body, writeLoop (range (v.Read path).ret) ∅ = .ok body := by
  rcases hresp : v.c.Read path with ⟨s, e⟩
  cases e with
  | some err =>
    have hr : (v.Read path).ret = none := by simp [Vault.Read, hresp]
    rw [hr]
    exact ⟨fun out h => by simp at h, ∅, rfl⟩
  | none =>
    have hempty : (v.Read path).ret = some ∅ →
        (∀ out, (v.Read path).ret = some out → ∀ e ∈ out.entries, validBase64 e.2) ∧
          ∃ body, writeLoop (range (v.Read path).ret) ∅ = .ok body := by
      intro hr
      rw [hr]
      refine ⟨fun out h => ?_, ∅, rfl⟩
      simp only [Option.some.injEq] at h
      subst h
      intro e he
      simp at he
    cases s with
    | none => exact hempty (by simp [Vault.Read, hresp])
    | some secret =>
      obtain ⟨data⟩ := secret
      cases data with
      | none => exact hempty (by simp [Vault.Read, hresp])
      | some record =>
        obtain ⟨out, log, hr, hout⟩ := Read_record v path record hresp
        have hv := valid_of_lookup_map out record _ hout
        obtain ⟨body, hb, -⟩ := writeLoop_valid out hv
        rw [hr]
        refine ⟨fun o h => ?_, body, hb⟩
        simp only [Option.some.injEq] at h
        subst h
        exact hv

/-- C11: when the store's list call returns, without error, a secret whose
`keys` list holds an element that is not a string, `List` does not return nil:
the assertion `r[i].(string)` panics. -/
theorem C11_list_panics_on_non_string_key :
    (keysStore numberInKeys).c.List examplePath =
      (some ⟨some ((∅ : GoMap Value).insert (lit "keys") numberInKeys)⟩, none) ∧
    ((keysStore numberInKeys).List examplePath).ret =
      .panics (.interfaceConversion (.Number (lit "7"))) :=
  ⟨rfl, rfl⟩

/-- C12: when the store's read call returns an error, with or without a
secret next to it, `Read` returns nil and prints the diagnostic `Error reading
secrets`; this result differs from the empty non-nil map that `Read` returns
for an absent record. -/
theorem C12_read_error_returns_nil (v : Vault) (path : GoString) (s : Option Secret)
    (err : GoError) (herr : v.c.Read path = (s, some err)) :
    (v.Read path).ret = none ∧
      (v.Read path).stdout = [⟨lit "Error reading secrets, err=%v", [.error err]⟩] ∧
      ∀ (w : Vault) (wpath : GoString),
        (w.c.Read wpath = (none, none) ∨ w.c.Read wpath = (some ⟨none⟩, none)) →
          (w.Read wpath).ret = some ∅ ∧ (w.Read wpath).ret ≠ (v.Read path).ret := by
  have hr : (v.Read path).ret = none := by simp [Vault.Read, herr]
  refine ⟨hr, by simp [Vault.Read, herr], ?_⟩
  intro w wpath habsent
  rw [hr]
  rcases habsent with h | h <;> simp [Vault.Read, h]

/-- C12 at a store whose read call returns an error next to a record. -/
theorem C12_read_error_returns_nil_witness :
    errorWithRecordStore.c.Read examplePath =
      (some ⟨some helloRecord⟩, some connectionRefused) ∧
    (errorWithRecordStore.Read examplePath).ret = none ∧
      (errorWithRecordStore.Read examplePath).stdout =
        [⟨lit "Error reading secrets, err=%v", [.error connectionRefused]⟩] ∧
      ∀ (w : Vault) (wpath : GoString),
        (w.c.Read wpath = (none, none) ∨ w.c.Read wpath = (some ⟨none⟩, none)) →
          (w.Read wpath).ret = some ∅ ∧
            (w.Read wpath).ret ≠ (errorWithRecordStore.Read examplePath).ret :=
  ⟨rfl, C12_read_error_returns_nil errorWithRecordStore examplePath _ connectionRefused rfl⟩

/-- C13: when the store's list call returns no error and a secret whose
`keys` entry is a list of strings, `List` returns, without panic and without
diagnostic, a sequence of the same length holding those strings in the same
order. -/
theorem C13_list_returns_keys (v : Vault) (path : GoString) (secret : Secret)
    (data : GoMap Value) (r : List Value)
    (hlist : v.c.List path = (some secret, none))
    (hdata : secret.Data = some data)
    (hkeys : data.lookup (lit "keys") = some (.array r))
    (hstrings : ∀ x ∈ r, ∃ s, x = Value.string s) :
    ∃ out, (v.List path).ret = .returns (some out) ∧ out.length = r.length ∧
      out.map Value.string = r ∧ (v.List path).stdout = [] := by
  obtain ⟨out, ho, hr⟩ := listLoop_strings r hstrings
  refine ⟨out, ?_, ?_, hr.symm, ?_⟩
  · simp [Vault.List, hlist, index, hdata, hkeys, ho]
  · rw [hr, List.length_map]
  · simp [Vault.List, hlist, index, hdata, hkeys, ho]

/-- C13 at a store whose keys are `foo` and `bar/`. -/
theorem C13_list_returns_keys_witness :
    ((keysStore stringKeys).c.List examplePath =
        (some ⟨some ((∅ : GoMap Value).insert (lit "keys") stringKeys)⟩, none) ∧
      ((∅ : GoMap Value).insert (lit "keys") stringKeys).lookup (lit "keys") =
        some (.array [.string (lit "foo"), .string (lit "bar/")]) ∧
      ∀ x ∈ [Value.string (lit "foo"), Value.string (lit "bar/")], ∃ s, x = Value.string s) ∧
    (∃ out, ((keysStore stringKeys).List examplePath).ret = .returns (some out) ∧
      out.length = [Value.string (lit "foo"), Value.string (lit "bar/")].length ∧
      out.map Value.string = [Value.string (lit "foo"), Value.string (lit "bar/")] ∧
      ((keysStore stringKeys).List examplePath).stdout = []) ∧
    ((keysStore stringKeys).List examplePath).ret = .returns (some [lit "foo", lit "bar/"]) :=
  ⟨⟨rfl, rfl, by simp⟩,
    C13_list_returns_keys (keysStore stringKeys) examplePath
      ⟨some ((∅ : GoMap Value).insert (lit "keys") stringKeys)⟩ _ _ rfl rfl rfl (by simp),
    rfl⟩

theorem range_nodupKeys {V : Type} (m : Option (GoMap V)) : (range m).NodupKeys := by
  cases m with
  | none => exact List.nodupKeys_nil
  | some m => exact m.nodupKeys

theorem List_calls (v : Vault) (path : GoString) : (v.List path).calls = [.List path] := by
  unfold Vault.List
  split
  · rfl
  · rfl
  · split
    · split <;> rfl
    · rfl

theorem Read_calls (v : Vault) (path : GoString) : (v.Read path).calls = [.Read path] := by
  unfold Vault.Read
  split
  · rfl
  · rfl
  · split <;> rfl

/-- C14 as stated fails: `Write` with a field that is not valid base64 makes no
call to the store. -/
theorem C14_write_invalid_makes_no_call :
    (helloStore.Write examplePath (some badData)).calls.length = 0 ∧
    ¬ ∀ (v : Vault) (path : GoString) (data : Option (GoMap GoString)),
      (v.Write path data).calls.length = 1 := by
  have h0 : (helloStore.Write examplePath (some badData)).calls.length = 0 := by decide
  refine ⟨h0, fun h => ?_⟩
  have h1 := h helloStore examplePath (some badData)
  omega

/-- C14, amended: every invocation of `List` and of `Read` makes exactly one
call to the store; an invocation of `Write` makes exactly one call when every
value of the encoded record is valid base64 and none otherwise. -/
theorem C14_store_calls (v : Vault) (path : GoString) (data : Option (GoMap GoString)) :
    (v.List path).calls = [.List path] ∧ (v.Read path).calls = [.Read path] ∧
      (v.Write path data).calls.length =
        if ∀ e ∈ range data, validBase64 e.2 then 1 else 0 := by
  refine ⟨List_calls v path, Read_calls v path, ?_⟩
  by_cases hv : ∀ e ∈ range data, validBase64 e.2
  · obtain ⟨body, hb, -⟩ := writeLoop_ok (range data) ∅ (range_nodupKeys data) hv
    obtain ⟨hcalls, -, -⟩ := Write_of_ok v path data body hb
    rw [hcalls, if_pos hv]
    rfl
  · have hbad : ∃ e ∈ range data, ¬ validBase64 e.2 := by
      by_contra hne
      exact hv (fun e he => by_contra (fun hn => hne ⟨e, he, hn⟩))
    obtain ⟨err, he⟩ := writeLoop_error (range data) ∅ hbad
    rw [if_neg hv]
    simp [Vault.Write, he]

/-- C15: for every record the store returns, `Read` prints one diagnostic for
each field whose value is neither null nor a string, number or boolean, with
the path, the field name and the value (printed as its type) as arguments,
and nothing else; for a record of string, number, boolean and null fields it
prints nothing. -/
theorem C15_read_diagnostics (v : Vault) (path : GoString) (record : GoMap Value)
    (hread : v.c.Read path = (some ⟨some record⟩, none)) :
    (v.Read path).stdout =
        (record.entries.filter (fun e => diagnosed e.2)).map (fun e =>
          (⟨lit "error reading value at %s, key=%s, type=%T\n",
            [.string path, .string e.1, .value e.2]⟩ : Printf)) ∧
      ((∀ e ∈ record.entries, diagnosed e.2 = false) → (v.Read path).stdout = []) := by
  have hs : (v.Read path).stdout = (readLoop path record.entries (∅, [])).2 := by
    simp [Vault.Read, hread]
  rw [hs, readLoop_stdout]
  refine ⟨by simp, ?_⟩
  intro hnone
  have hf : record.entries.filter (fun e => diagnosed e.2) = [] := by
    rw [List.filter_eq_nil_iff]
    intro e he
    simp [hnone e he]
  simp [hf]

/-- C15 at a record with a null, an object, an array and a `float64` field
next to a string field: three diagnostics. -/
theorem C15_read_diagnostics_witness :
    mixedStore.c.Read examplePath = (some ⟨some mixedRecord⟩, none) ∧
    ((mixedStore.Read examplePath).stdout =
        (mixedRecord.entries.filter (fun e => diagnosed e.2)).map (fun e =>
          (⟨lit "error reading value at %s, key=%s, type=%T\n",
            [.string examplePath, .string e.1, .value e.2]⟩ : Printf)) ∧
      ((∀ e ∈ mixedRecord.entries, diagnosed e.2 = false) →
        (mixedStore.Read examplePath).stdout = [])) ∧
    (mixedStore.Read examplePath).stdout.length = 3 ∧
    (helloStore.Read examplePath).stdout = [] :=
  ⟨rfl, C15_read_diagnostics mixedStore examplePath mixedRecord rfl, by decide, rfl⟩

/-- C16: `Read` loses the type of a value: the record holding the boolean
`true` and the record holding the string `true` under the same field name are
different and give the same encoded record, and so do the record holding null
and the record holding the empty string. -/
theorem C16_read_loses_types (path k : GoString) :
    single k (.bool true) ≠ single k (.string (lit "true")) ∧
    ((fixedStore absent (found (single k (.bool true))) absent).Read path).ret =
      ((fixedStore absent (found (single k (.string (lit "true")))) absent).Read path).ret ∧
    single k .null ≠ single k (.string []) ∧
    ((fixedStore absent (found (single k .null)) absent).Read path).ret =
      ((fixedStore absent (found (single k (.string []))) absent).Read path).ret := by
  have hl : ∀ x, (single k x).lookup k = some x := fun x => AList.lookup_insert _
  refine ⟨fun h => ?_, rfl, fun h => ?_, rfl⟩
  · have h2 := congrArg (fun m => AList.lookup k m) h
    simp only [hl] at h2
    cases h2
  · have h2 := congrArg (fun m => AList.lookup k m) h
    simp only [hl] at h2
    cases h2

/-- C17: every value of every map that `Read` returns is valid base64,
whatever the store's response; so the decoding loop of `Write` succeeds on the
result of `Read` and `Write` makes its call to the store. -/
theorem C17_read_values_are_valid_base64 (v : Vault) (rpath wpath : GoString) :
    (∀ out, (v.Read rpath).ret = some out → ∀ e ∈ out.entries, validBase64 e.2) ∧
      ∃ body, writeLoop (range (v.Read rpath).ret) ∅ = .ok body ∧
        (v.Write wpath (v.Read rpath).ret).calls = [.Write wpath body] := by
  obtain ⟨hvalid, body, hb⟩ := writeLoop_Read v rpath
  exact ⟨hvalid, body, hb, (Write_of_ok v wpath _ body hb).1⟩

end vault
